import Mathlib

/-!
Verification of the ptime backend (FastAPI audience-engagement server)
against its natural-language specification.

Strings coming over the HTTP boundary are modelled as `List Char`
(Python `str` restricted to its ASCII behaviour, which covers every
input the properties below mention); database tables are modelled as
Lean lists of record rows and timestamps as natural numbers.  The
best-effort Redis cache is modelled per key: the single-message and
recent-message keys are evicted/invalidated by every mutation path, so
reads through them are modelled by their database path (the state a
reader sees after any mutation); the per-session statistics key is
*not* invalidated by deletion, so it is modelled explicitly as an
optional cached value threaded through the statistics read.
-/

namespace Ptime

/-! ## Generic list helpers (Python string/list primitives) -/

/-- `listIsPref p s` models Python `s.startswith(p)` on character lists. -/
def listIsPref : List Char → List Char → Bool
  | [], _ => true
  | _ :: _, [] => false
  | a :: as, b :: bs => a == b && listIsPref as bs

/-- Fuel-indexed worker for `dropOccs`: each step either consumes the
matched occurrence of `old` or keeps one character; `fuel` bounds the number
of steps by the length of the remaining input. -/
def dropOccsAux (old : List Char) : Nat → List Char → List Char
  | _, [] => []
  | 0, s => s
  | fuel + 1, c :: rest =>
    if listIsPref old (c :: rest) then
      dropOccsAux old fuel (List.drop (old.length - 1) rest)
    else
      c :: dropOccsAux old fuel rest

/-- Models Python `s.replace(old, "")` for a non-empty `old`: removes every
non-overlapping occurrence of `old`, scanning left to right.  (Python
inserts between characters when `old` is empty; that case never arises in
this development.) -/
def dropOccs (old s : List Char) : List Char :=
  dropOccsAux old s.length s

theorem dropOccsAux_nil (old : List Char) (fuel : Nat) :
    dropOccsAux old fuel [] = [] := by
  cases fuel <;> rfl

theorem dropOccsAux_fuelInv (o : Char) (os : List Char) :
    ∀ fuel fuel' s, s.length ≤ fuel → s.length ≤ fuel' →
      dropOccsAux (o :: os) fuel s = dropOccsAux (o :: os) fuel' s := by
  intro fuel
  induction fuel with
  | zero =>
    intro fuel' s hs _
    have : s = [] := List.eq_nil_of_length_eq_zero (Nat.le_zero.mp hs)
    subst this
    rw [dropOccsAux_nil, dropOccsAux_nil]
  | succ n ih =>
    intro fuel' s hs hs'
    cases s with
    | nil => rw [dropOccsAux_nil, dropOccsAux_nil]
    | cons c rest =>
      cases fuel' with
      | zero => simp at hs'
      | succ m =>
        simp only [dropOccsAux]
        by_cases hp : listIsPref (o :: os) (c :: rest) = true
        · simp only [hp, if_true]
          apply ih
          · have := List.length_drop ((o :: os).length - 1) rest
            simp at hs
            omega
          · have := List.length_drop ((o :: os).length - 1) rest
            simp at hs'
            omega
        · simp only [hp, Bool.false_eq_true, if_false]
          simp at hs hs'
          rw [ih m rest (by omega) (by omega)]

theorem dropOccs_cons (o : Char) (os : List Char) (c : Char) (rest : List Char) :
    dropOccs (o :: os) (c :: rest) =
      if listIsPref (o :: os) (c :: rest) then
        dropOccs (o :: os) (List.drop os.length rest)
      else
        c :: dropOccs (o :: os) rest := by
  show dropOccsAux (o :: os) (rest.length + 1) (c :: rest) = _
  simp only [dropOccsAux]
  have hlen : (o :: os).length - 1 = os.length := by simp
  by_cases hp : listIsPref (o :: os) (c :: rest) = true
  · simp only [hp, if_true, hlen]
    apply dropOccsAux_fuelInv
    · have := List.length_drop os.length rest
      omega
    · exact Nat.le_refl _
  · simp only [hp, Bool.false_eq_true, if_false]
    rfl

theorem listIsPref_append_self (l t : List Char) : listIsPref l (l ++ t) = true := by
  induction l with
  | nil => rfl
  | cons a as ih => simp [listIsPref, ih]

theorem dropOccs_of_head_notMem (o : Char) (os s : List Char)
    (h : ∀ c ∈ s, c ≠ o) : dropOccs (o :: os) s = s := by
  induction s with
  | nil => rfl
  | cons c rest ih =>
    have hc : c ≠ o := h c (List.mem_cons_self c rest)
    have hpref : listIsPref (o :: os) (c :: rest) = false := by
      simp [listIsPref, hc.symm]
    rw [dropOccs_cons, hpref]
    simp only [Bool.false_eq_true, if_false]
    rw [ih (fun x hx => h x (List.mem_cons_of_mem _ hx))]

theorem dropOccs_prepend (o : Char) (os t : List Char) :
    dropOccs (o :: os) ((o :: os) ++ t) = dropOccs (o :: os) t := by
  have hpref : listIsPref (o :: os) (o :: (os ++ t)) = true := by
    simpa [listIsPref] using listIsPref_append_self os t
  rw [List.cons_append, dropOccs_cons, hpref]
  simp [List.drop_left]

theorem listIsPref_nonempty (a : Char) (p s : List Char)
    (h : listIsPref (a :: p) s = true) : ∃ rest, s = a :: rest := by
  cases s with
  | nil => simp [listIsPref] at h
  | cons b bs =>
    simp only [listIsPref, Bool.and_eq_true, beq_iff_eq] at h
    exact ⟨bs, by rw [h.1]⟩

/-! ## Python character classes (ASCII range, as used by the code) -/

/-- Python `c.isupper()` for an ASCII character (`A`–`Z`). -/
def pyIsUpperCh (c : Char) : Bool := 65 ≤ c.toNat && c.toNat ≤ 90

/-- Python `c.islower()` for an ASCII character (`a`–`z`). -/
def pyIsLowerCh (c : Char) : Bool := 97 ≤ c.toNat && c.toNat ≤ 122

/-- Python `c.isdigit()` / regex `\d` for an ASCII character (`0`–`9`). -/
def pyIsDigitCh (c : Char) : Bool := 48 ≤ c.toNat && c.toNat ≤ 57

/-- Python `c.isalpha()` for an ASCII character. -/
def pyIsAlphaCh (c : Char) : Bool := pyIsUpperCh c || pyIsLowerCh c

/-- Python `s.isalnum()`: non-empty and every character alphanumeric. -/
def pyIsAlnumStr (s : List Char) : Bool :=
  !s.isEmpty && s.all (fun c => pyIsAlphaCh c || pyIsDigitCh c)

/-- Python `s.isupper()`: at least one cased character and no lowercase one. -/
def pyIsUpperStr (s : List Char) : Bool :=
  s.any pyIsAlphaCh && s.all (fun c => !pyIsLowerCh c)

/-! ## QR code service (`app/services/qr_code.py`)

`Settings` (app/config.py) defines no `frontend_url` attribute, so
`getattr(settings, 'frontend_url', 'http://localhost:3000')` always
yields the literal default, making the service's base URL a constant. -/

def base_url : List Char := "http://localhost:3000".data

/-- The join-URL prefix `f"{self.base_url}/join/"`. -/
def joinUrlPre : List Char := base_url ++ "/join/".data

/-- `QRCodeService.generate_short_url`: `f"{self.base_url}/join/{session_code}"`. -/
def generate_short_url (session_code : List Char) : List Char :=
  joinUrlPre ++ session_code

/-- `QRCodeService.verify_qr_code_data`: if the data starts with the join
prefix, strips it with Python `str.replace(prefix, "")` (which removes *every*
occurrence) and accepts the remainder iff it has length 6, `isalnum()` and
`isupper()`. -/
def verify_qr_code_data (qr_data : List Char) : Option (List Char) :=
  if listIsPref joinUrlPre qr_data then
    let session_code := dropOccs joinUrlPre qr_data
    if session_code.length == 6 && pyIsAlnumStr session_code && pyIsUpperStr session_code then
      some session_code
    else
      none
  else
    none

/-! ## Input validators (`app/core/validators.py`)

`settings.password_min_length` (app/config.py) defaults to 8. -/

def password_min_length : Nat := 8

/-- The regex character class `[!@#$%^&*(),.?":\x7b\x7d|<>]` of
`PasswordValidator.validate_password`. -/
def pwSpecialChars : List Char := "!@#$%^&*(),.?\":\x7b\x7d|<>".data

/-- The six rules of `PasswordValidator.validate_password`, standing for the
six Korean error strings the source appends (in source order):
minimum length, needs uppercase, needs lowercase, needs digit, needs special
character, must not contain a space. -/
inductive PwReason where
  | tooShort
  | noUpper
  | noLower
  | noDigit
  | noSpecial
  | hasSpace
deriving DecidableEq, Repr

/-- `PasswordValidator.validate_password`: checks all six rules in order and
returns every violated one (each `if` appends one message to `errors`). -/
def validate_password (password : List Char) : List PwReason :=
  (if password.length < password_min_length then [PwReason.tooShort] else []) ++
  (if !password.any pyIsUpperCh then [PwReason.noUpper] else []) ++
  (if !password.any pyIsLowerCh then [PwReason.noLower] else []) ++
  (if !password.any pyIsDigitCh then [PwReason.noDigit] else []) ++
  (if !password.any (fun c => pwSpecialChars.contains c) then [PwReason.noSpecial] else []) ++
  (if password.contains ' ' then [PwReason.hasSpace] else [])

/-- `PasswordValidator.is_strong_password`. -/
def is_strong_password (password : List Char) : Bool :=
  (validate_password password).length == 0

/-- `SecurityValidator.is_safe_redirect_url`: empty URLs are unsafe;
root-relative paths (`/...` but not `//...`) are safe; otherwise the URL is
safe iff it starts with `https://{host}` or `http://{host}` for some host of
the allow-list (a `None`/empty allow-list skips the loop and returns false). -/
def is_safe_redirect_url (url : List Char) (allowed_hosts : List (List Char)) : Bool :=
  if url.isEmpty then
    false
  else if listIsPref ['/'] url && !listIsPref ['/', '/'] url then
    true
  else
    allowed_hosts.any (fun host =>
      listIsPref ("https://".data ++ host) url || listIsPref ("http://".data ++ host) url)

/-! ## Session model and service (`app/models/session.py`, `app/services/session.py`) -/

structure Sess where
  id : String
  presenter_id : String
  title : String
  description : Option String
  session_code : String
  is_active : Bool
deriving DecidableEq, Repr

/-- `SessionService.get_session_by_id`: first row whose id matches. -/
def get_session_by_id (db : List Sess) (session_id : String) : Option Sess :=
  db.find? (fun s => s.id == session_id)

/-- `SessionService.get_session_by_code`. -/
def get_session_by_code (db : List Sess) (session_code : String) : Option Sess :=
  db.find? (fun s => s.session_code == session_code)

/-- `SessionService.check_session_ownership`:
`session is not None and str(session.presenter_id) == str(user_id)`. -/
def check_session_ownership (db : List Sess) (session_id user_id : String) : Bool :=
  match get_session_by_id db session_id with
  | none => false
  | some s => s.presenter_id == user_id

/-- Partial update payload (`SessionUpdate`): only supplied fields change. -/
structure SessUpdate where
  title : Option String
  description : Option String
  is_active : Option Bool
deriving Repr

def applySessUpdate (u : SessUpdate) (s : Sess) : Sess :=
  { s with
    title := u.title.getD s.title
    description := (u.description.map some).getD s.description
    is_active := u.is_active.getD s.is_active }

/-- `SessionService.update_session`: `None` when the session is missing. -/
def update_session_svc (db : List Sess) (session_id : String) (u : SessUpdate) :
    Option Sess :=
  (get_session_by_id db session_id).map (applySessUpdate u)

/-- `SessionService.delete_session`: false when the session is missing. -/
def delete_session_svc (db : List Sess) (session_id : String) : Bool :=
  (get_session_by_id db session_id).isSome

/-- `SessionService.activate_session` (sets `is_active := true`). -/
def activate_session_svc (db : List Sess) (session_id : String) : Option Sess :=
  (get_session_by_id db session_id).map (fun s => { s with is_active := true })

/-- `SessionService.deactivate_session` (sets `is_active := false`). -/
def deactivate_session_svc (db : List Sess) (session_id : String) : Option Sess :=
  (get_session_by_id db session_id).map (fun s => { s with is_active := false })

/-! ## Session API endpoints (`app/api/sessions.py`)

Status outcome of each owner-gated handler for an authenticated active
user, abstracting the response body. -/

inductive Outcome where
  | ok
  | notFound
  | forbidden
deriving DecidableEq, Repr

/-- `GET /sessions/{session_id}` (`get_session`, lines 82–122): looks the
session up first and answers 404 if absent, then checks ownership and
answers **403** if the caller is not the owner. -/
def get_session_endpoint (db : List Sess) (session_id user_id : String) : Outcome :=
  match get_session_by_id db session_id with
  | none => Outcome.notFound
  | some _ =>
    if check_session_ownership db session_id user_id then Outcome.ok
    else Outcome.forbidden

/-- `PUT /sessions/{session_id}` (`update_session`): 404 whenever the
ownership check fails, else delegates to the service. -/
def update_session_endpoint (db : List Sess) (session_id user_id : String)
    (u : SessUpdate) : Outcome :=
  if check_session_ownership db session_id user_id then
    match update_session_svc db session_id u with
    | none => Outcome.notFound
    | some _ => Outcome.ok
  else Outcome.notFound

/-- `DELETE /sessions/{session_id}` (`delete_session`): 404 whenever the
ownership check fails. (The service-failure branch maps to a 500, which
cannot be reached here because ownership implies existence.) -/
def delete_session_endpoint (db : List Sess) (session_id user_id : String) : Outcome :=
  if check_session_ownership db session_id user_id then
    if delete_session_svc db session_id then Outcome.ok else Outcome.notFound
  else Outcome.notFound

/-- `POST /sessions/{session_id}/activate` (`activate_session`). -/
def activate_session_endpoint (db : List Sess) (session_id user_id : String) : Outcome :=
  if check_session_ownership db session_id user_id then
    match activate_session_svc db session_id with
    | none => Outcome.notFound
    | some _ => Outcome.ok
  else Outcome.notFound

/-- `POST /sessions/{session_id}/deactivate` (`deactivate_session`). -/
def deactivate_session_endpoint (db : List Sess) (session_id user_id : String) : Outcome :=
  if check_session_ownership db session_id user_id then
    match deactivate_session_svc db session_id with
    | none => Outcome.notFound
    | some _ => Outcome.ok
  else Outcome.notFound

/-! ## Participant model and join (`app/models/participant.py`,
`app/services/participant.py`) -/

structure Part where
  id : String
  session_id : String
  nickname : String
  ip_address : Option String
deriving DecidableEq, Repr

/-- Python `str.upper()` (ASCII model, as produced by `Char.toUpper`). -/
def pyUpper (s : String) : String := ⟨s.data.map Char.toUpper⟩

inductive JoinResult where
  | notFound
  | conflict
  | ok
deriving DecidableEq, Repr

/-- `ParticipantService.join_session`: looks the session up by
`session_code == session_code.upper()` (404 if absent), checks nickname
uniqueness within that session by exact match (409 if taken) — the
commented-out `session.is_active` gate is absent — then inserts a new
Participant row with the caller's IP.  `new_id` stands for the
database-assigned id of the new row. -/
def join_session (sessions : List Sess) (participants : List Part)
    (session_code : String) (nickname : String) (ip_address : Option String)
    (new_id : String) : JoinResult × List Part :=
  match get_session_by_code sessions (pyUpper session_code) with
  | none => (JoinResult.notFound, participants)
  | some s =>
    match participants.find? (fun p => p.session_id == s.id && p.nickname == nickname) with
    | some _ => (JoinResult.conflict, participants)
    | none =>
      (JoinResult.ok,
        participants ++ [{ id := new_id, session_id := s.id, nickname := nickname,
                           ip_address := ip_address }])

/-! ## Message model and service (`app/models/message.py`,
`app/services/message_service.py`)

Timestamps are abstract naturals; `datetime.utcnow()` at a mutation is
passed in as `now`.  Redis keys: `update_message`/`delete_message` evict
the `message:{id}` key and invalidate `recent_messages:{session_id}`, so
the single-get and recent reads after a mutation are their database
paths; the `message_stats:{session_id}` key (5-minute TTL) is *never*
invalidated by a mutation, so the statistics read carries the state of
that key explicitly. -/

structure Msg where
  id : String
  session_id : String
  participant_id : String
  nickname : String
  content : String
  message_type : String
  is_deleted : Bool
  is_edited : Bool
  edit_count : Nat
  created_at : Nat
  updated_at : Nat
  deleted_at : Option Nat
deriving DecidableEq, Repr

/-- Rewrites the first row satisfying `p` (the ORM mutates the row returned
by `.first()` and commits). -/
def replaceFirst (p : Msg → Bool) (f : Msg → Msg) : List Msg → List Msg
  | [] => []
  | r :: rs => if p r then f r :: rs else r :: replaceFirst p f rs

/-- The filter of `update_message`/`delete_message`:
`Message.id == message_id, Message.participant_id == participant_id,
Message.is_deleted == False`. -/
def ownLiveFilter (message_id participant_id : String) (m : Msg) : Bool :=
  m.id == message_id && m.participant_id == participant_id && !m.is_deleted

/-- `MessageService.get_message` (database path): first row with the id that
is not soft-deleted; `None` otherwise. -/
def get_message (db : List Msg) (message_id : String) : Option Msg :=
  db.find? (fun m => m.id == message_id && !m.is_deleted)

/-- Insertion of one row into a list sorted by `le` (stable). -/
def insertLe (le : Msg → Msg → Bool) (m : Msg) : List Msg → List Msg
  | [] => [m]
  | x :: xs => if le m x then m :: x :: xs else x :: insertLe le m xs

/-- Stable insertion sort, modelling the SQL `ORDER BY created_at`. -/
def sortLe (le : Msg → Msg → Bool) : List Msg → List Msg
  | [] => []
  | x :: xs => insertLe le x (sortLe le xs)

/-- `desc(Message.created_at)` / `asc(Message.created_at)` per the `order`
parameter (`"desc"` is the default; anything else sorts ascending). -/
def orderLe (order : String) : Msg → Msg → Bool :=
  if order == "desc" then fun a b => b.created_at ≤ a.created_at
  else fun a b => a.created_at ≤ b.created_at

structure MessageListResponse where
  messages : List Msg
  total_count : Nat
  page : Nat
  page_size : Nat
  has_next : Bool
deriving Repr

/-- The live rows of one session: filter
`Message.session_id == session_id, Message.is_deleted == False`. -/
def sessionLive (db : List Msg) (session_id : String) : List Msg :=
  db.filter (fun m => m.session_id == session_id && !m.is_deleted)

/-- `MessageService.get_session_messages`: counts the filtered rows, orders
by `created_at`, applies `offset((page-1)*page_size).limit(page_size)`, and
reports `has_next = page*page_size < total_count`. -/
def get_session_messages (db : List Msg) (session_id : String)
    (page page_size : Nat) (order : String) : MessageListResponse :=
  let q := sessionLive db session_id
  let total_count := q.length
  let msgs := ((sortLe (orderLe order) q).drop ((page - 1) * page_size)).take page_size
  { messages := msgs
    total_count := total_count
    page := page
    page_size := page_size
    has_next := decide (page * page_size < total_count) }

/-- `MessageService.get_recent_messages` (database path, cache miss): the
newest `limit` live rows of the session. -/
def get_recent_messages (db : List Msg) (session_id : String) (limit : Nat) :
    List Msg :=
  (sortLe (orderLe "desc") (sessionLive db session_id)).take limit

/-- `MessageUpdate` payload. -/
structure MsgUpdate where
  content : String
deriving Repr

def applyMsgUpdate (u : MsgUpdate) (now : Nat) (m : Msg) : Msg :=
  { m with
    content := u.content
    is_edited := true
    edit_count := m.edit_count + 1
    updated_at := now }

/-- `MessageService.update_message`: finds the caller's own live row by
id + participant id, else returns `None` with the database untouched;
on a hit sets the new content, `is_edited`, `edit_count + 1` and
`updated_at`, and commits. -/
def update_message (db : List Msg) (message_id participant_id : String)
    (u : MsgUpdate) (now : Nat) : List Msg × Option Msg :=
  match db.find? (ownLiveFilter message_id participant_id) with
  | none => (db, none)
  | some m =>
    (replaceFirst (ownLiveFilter message_id participant_id) (applyMsgUpdate u now) db,
     some (applyMsgUpdate u now m))

def markDeleted (now : Nat) (m : Msg) : Msg :=
  { m with is_deleted := true, deleted_at := some now }

/-- `MessageService.delete_message` (soft delete): finds the caller's own
live row by id + participant id, else returns `False` with the database
untouched; on a hit sets `is_deleted := true` and `deleted_at`. -/
def delete_message (db : List Msg) (message_id participant_id : String)
    (now : Nat) : List Msg × Bool :=
  match db.find? (ownLiveFilter message_id participant_id) with
  | none => (db, false)
  | some _ =>
    (replaceFirst (ownLiveFilter message_id participant_id) (markDeleted now) db, true)

structure MessageStats where
  session_id : String
  total_messages : Nat
  total_participants : Nat
  first_message_at : Option Nat
  last_message_at : Option Nat
deriving DecidableEq, Repr

/-- Fold of a non-empty aggregate (`func.min` / `func.max`). -/
def aggFold (f : Nat → Nat → Nat) : List Nat → Option Nat
  | [] => none
  | x :: xs => some (xs.foldl f x)

/-- The aggregate query inside `MessageService.get_message_stats` (the
database path, lines 282–305): over the session's live rows —
`count(id)`, `count(distinct participant_id)`, `min(created_at)`,
`max(created_at)`.  (The derived floating-point
`messages_per_participant` field is not modelled.) -/
def message_stats_query (db : List Msg) (session_id : String) : MessageStats :=
  let q := sessionLive db session_id
  { session_id := session_id
    total_messages := q.length
    total_participants := (q.map (fun m => m.participant_id)).dedup.length
    first_message_at := aggFold Nat.min (q.map (fun m => m.created_at))
    last_message_at := aggFold Nat.max (q.map (fun m => m.created_at)) }

/-- `MessageService.get_message_stats`, cache first: `_get_cached_stats`
reads the `message_stats:{session_id}` key and a live value is returned
as-is; only on a miss does the aggregate query run, after which
`_cache_stats` stores the result with a 5-minute TTL.  `cached` is the
state of that key at call time (`none` = absent or expired); the second
component is the state of the key afterwards. -/
def get_message_stats (cached : Option MessageStats) (db : List Msg)
    (session_id : String) : MessageStats × Option MessageStats :=
  match cached with
  | some stats => (stats, some stats)
  | none =>
    (message_stats_query db session_id, some (message_stats_query db session_id))

/-- The effect of `MessageService.delete_message` on the
`message_stats:{session_id}` key: the delete path deletes
`message:{message_id}` and invalidates `recent_messages:{session_id}`
(lines 261–263) but never touches the statistics key, which therefore
keeps whatever value it held before the delete until its 5-minute TTL
expires. -/
def delete_message_stats_cache (cached : Option MessageStats) :
    Option MessageStats :=
  cached

/-! ## Messages router (`app/api/messages.py`)

The module's import list (lines 1–16) and its GET route table, in
registration order.  Starlette matches routes in registration order, so
the request path decides which handler runs. -/

/-- Every name bound at module scope by the imports of
`app/api/messages.py` (lines 1–16): `fastapi` names, `Session`,
`get_db`, the message-service names, and the four schema names. -/
def messagesModuleImports : List String :=
  ["APIRouter", "Depends", "HTTPException", "Query", "Request",
   "Session", "get_db", "get_message_service", "MessageService",
   "MessageResponse", "MessageListResponse", "MessageStats", "MessageUpdate"]

/-- One segment of a route pattern: a literal, or a path parameter. -/
inductive Seg where
  | lit (s : String)
  | par
deriving DecidableEq, Repr

def segMatch : Seg → String → Bool
  | Seg.lit s, t => s == t
  | Seg.par, _ => true

def routeMatch : List Seg → List String → Bool
  | [], [] => true
  | p :: ps, t :: ts => segMatch p t && routeMatch ps ts
  | _, _ => false

/-- The GET routes registered on the messages router, in source order:
`/session/{session_id}`, `/session/{session_id}/recent`, `/{message_id}`,
`/session/{session_id}/stats`, `/health` — each paired with its handler
name. -/
def messagesGetRoutes : List (List Seg × String) :=
  [([Seg.lit "session", Seg.par], "get_session_messages"),
   ([Seg.lit "session", Seg.par, Seg.lit "recent"], "get_recent_messages"),
   ([Seg.par], "get_message"),
   ([Seg.lit "session", Seg.par, Seg.lit "stats"], "get_message_stats"),
   ([Seg.lit "health"], "message_api_health")]

/-- First-match route dispatch for a GET below `/api/messages`. -/
def dispatchMessagesGet (path : List String) : Option String :=
  (messagesGetRoutes.find? (fun r => routeMatch r.1 path)).map (fun r => r.2)

/-- Running the body of `message_api_health` (lines 255–262): it evaluates
`datetime.utcnow().isoformat()`, so it first resolves the module-scope name
`datetime`; if that name is unbound the handler raises `NameError` (an
unhandled exception, surfaced as a 500 by the framework) instead of
returning the healthy-status body. -/
def message_api_health : Except String (List (String × String)) :=
  if messagesModuleImports.contains "datetime" then
    Except.ok [("status", "healthy"), ("service", "message_api")]
  else
    Except.error "NameError: name datetime is not defined"

/-! ## Facts about the QR round trip (claim C1) -/

/-- A join-code character: uppercase ASCII letter or ASCII digit (the
alphabet of `SessionService.generate_session_code`). -/
def codeChar (c : Char) : Bool := pyIsUpperCh c || pyIsDigitCh c

theorem codeChar_ne_h {c : Char} (h : codeChar c = true) : c ≠ 'h' := by
  intro he
  subst he
  exact absurd h (by decide)

theorem codeChar_alnum {c : Char} (h : codeChar c = true) :
    (pyIsAlphaCh c || pyIsDigitCh c) = true := by
  simp only [codeChar, pyIsAlphaCh, Bool.or_eq_true] at h ⊢
  rcases h with h | h
  · exact Or.inl (Or.inl h)
  · exact Or.inr h

theorem codeChar_not_lower {c : Char} (h : codeChar c = true) :
    pyIsLowerCh c = false := by
  rw [Bool.eq_false_iff]
  intro hl
  simp only [pyIsLowerCh, Bool.and_eq_true, decide_eq_true_eq] at hl
  simp only [codeChar, pyIsUpperCh, pyIsDigitCh, Bool.or_eq_true, Bool.and_eq_true,
    decide_eq_true_eq] at h
  omega

theorem joinUrlPre_cons : joinUrlPre = 'h' :: "ttp://localhost:3000/join/".data := by
  decide

/-- C1, amended half 1: decoding a generated join URL returns the code,
provided the code contains at least one letter. -/
theorem verify_generate_roundtrip (code : List Char)
    (hlen : code.length = 6)
    (hchars : code.all codeChar = true)
    (hletter : code.any pyIsUpperCh = true) :
    verify_qr_code_data (generate_short_url code) = some code := by
  have hchars' : ∀ c ∈ code, codeChar c = true := by
    simpa [List.all_eq_true] using hchars
  have hstart : listIsPref joinUrlPre (generate_short_url code) = true := by
    simpa [generate_short_url] using listIsPref_append_self joinUrlPre code
  have hdrop : dropOccs joinUrlPre (generate_short_url code) = code := by
    show dropOccs joinUrlPre (joinUrlPre ++ code) = code
    rw [joinUrlPre_cons, dropOccs_prepend]
    exact dropOccs_of_head_notMem _ _ code
      (fun c hc => codeChar_ne_h (hchars' c hc))
  have hne : code.isEmpty = false := by
    cases code with
    | nil => simp at hlen
    | cons _ _ => rfl
  have halnum : pyIsAlnumStr code = true := by
    simp only [pyIsAlnumStr, Bool.and_eq_true, Bool.not_eq_true', List.all_eq_true]
    exact ⟨hne, fun c hc => codeChar_alnum (hchars' c hc)⟩
  have hupper : pyIsUpperStr code = true := by
    simp only [pyIsUpperStr, Bool.and_eq_true]
    constructor
    · rcases List.any_eq_true.mp hletter with ⟨c, hc, hcu⟩
      exact List.any_eq_true.mpr ⟨c, hc, by simp [pyIsAlphaCh, hcu]⟩
    · rw [List.all_eq_true]
      intro c hc
      simp [codeChar_not_lower (hchars' c hc)]
  rw [verify_qr_code_data, if_pos hstart]
  simp only [hdrop, hlen, halnum, hupper]
  rfl

/-- C1, amended half 2: any input that does not start with the join prefix
is rejected. -/
theorem verify_rejects_other_prefix (s : List Char)
    (h : listIsPref joinUrlPre s = false) :
    verify_qr_code_data s = none := by
  rw [verify_qr_code_data, if_neg]
  simp [h]

/-! ## Claim theorems -/

/-- C1 (amended).  The QR round trip holds for every valid 6-character
code over `A`–`Z`/`0`–`9` that contains at least one letter (a digits-only
code is rejected because Python `isupper()` is false on strings without a
cased character); and `verify_qr_code_data` returns absent for every input
that does not start with the configured base URL followed by `/join/`
(among inputs that do start with it, the extraction deletes *every*
occurrence of that prefix, so inputs with a repeated prefix can also be
accepted — see the counterexample). -/
theorem C1_qr_roundtrip_amended :
    (∀ code : List Char, code.length = 6 → code.all codeChar = true →
      code.any pyIsUpperCh = true →
      verify_qr_code_data (generate_short_url code) = some code) ∧
    (∀ s : List Char, listIsPref joinUrlPre s = false →
      verify_qr_code_data s = none) :=
  ⟨verify_generate_roundtrip, verify_rejects_other_prefix⟩

theorem C1_qr_roundtrip_amended_witness :
    (("AB12CD".data.length = 6 ∧ "AB12CD".data.all codeChar = true ∧
        "AB12CD".data.any pyIsUpperCh = true) ∧
      verify_qr_code_data (generate_short_url "AB12CD".data) = some "AB12CD".data) ∧
    (listIsPref joinUrlPre "/relative/path".data = false ∧
      verify_qr_code_data "/relative/path".data = none) :=
  ⟨⟨⟨by decide, by decide, by decide⟩,
    C1_qr_roundtrip_amended.1 "AB12CD".data (by decide) (by decide) (by decide)⟩,
   ⟨by decide, C1_qr_roundtrip_amended.2 "/relative/path".data (by decide)⟩⟩

/-- C1 counterexample.  `"123456"` is a valid join code (6 characters of
`A`–`Z0`–`9`) but the round trip yields `none`; and the doubled-prefix
input `{base}/join/{base}/join/ABCDEF`, which is *not* the base URL
followed by `/join/` and 6 code characters, is accepted. -/
theorem C1_qr_roundtrip_counterexample :
    ("123456".data.length = 6 ∧ "123456".data.all codeChar = true) ∧
    verify_qr_code_data (generate_short_url "123456".data) = none ∧
    verify_qr_code_data (joinUrlPre ++ joinUrlPre ++ "ABCDEF".data) =
      some "ABCDEF".data ∧
    ¬ ∃ code : List Char, code.length = 6 ∧
        joinUrlPre ++ joinUrlPre ++ "ABCDEF".data = joinUrlPre ++ code := by
  refine ⟨⟨by decide, by decide⟩, by decide, by decide, ?_⟩
  rintro ⟨code, h6, heq⟩
  have hlen := congrArg List.length heq
  have hjp : joinUrlPre.length = 27 := by decide
  simp only [List.length_append, h6, hjp] at hlen
  simp at hlen

/-- C2 counterexample.  For a database holding one session owned by
`alice`, the authenticated caller `bob` fails the ownership check, yet the
detail endpoint `GET /sessions/{id}` answers `403 Forbidden`, not
`404 Not Found`. -/
def sessDbC2 : List Sess :=
  [{ id := "s1", presenter_id := "alice", title := "Demo",
     description := none, session_code := "ABC123", is_active := false }]

theorem C2_ownership_counterexample :
    check_session_ownership sessDbC2 "s1" "bob" = false ∧
    get_session_endpoint sessDbC2 "s1" "bob" = Outcome.forbidden ∧
    Outcome.forbidden ≠ Outcome.notFound := by
  decide

/-- C2 (amended).  When the ownership check fails, the update, delete,
activate and deactivate endpoints answer NotFound in both failure modes
(session absent, or owned by another presenter); the detail endpoint
answers NotFound only when the session is absent, and Forbidden when it
exists but belongs to a different presenter. -/
theorem C2_ownership_amended :
    ∀ (db : List Sess) (session_id user_id : String),
      check_session_ownership db session_id user_id = false →
      (∀ u, update_session_endpoint db session_id user_id u = Outcome.notFound) ∧
      delete_session_endpoint db session_id user_id = Outcome.notFound ∧
      activate_session_endpoint db session_id user_id = Outcome.notFound ∧
      deactivate_session_endpoint db session_id user_id = Outcome.notFound ∧
      (get_session_by_id db session_id = none →
        get_session_endpoint db session_id user_id = Outcome.notFound) ∧
      (∀ s, get_session_by_id db session_id = some s →
        get_session_endpoint db session_id user_id = Outcome.forbidden) := by
  intro db session_id user_id h
  refine ⟨?_, ?_, ?_, ?_, ?_, ?_⟩
  · intro u
    simp [update_session_endpoint, h]
  · simp [delete_session_endpoint, h]
  · simp [activate_session_endpoint, h]
  · simp [deactivate_session_endpoint, h]
  · intro hnone
    simp [get_session_endpoint, hnone]
  · intro s hs
    simp [get_session_endpoint, hs, h]

theorem C2_ownership_amended_witness :
    check_session_ownership sessDbC2 "s1" "bob" = false ∧
    delete_session_endpoint sessDbC2 "s1" "bob" = Outcome.notFound ∧
    get_session_endpoint sessDbC2 "missing" "bob" = Outcome.notFound :=
  ⟨by decide,
   (C2_ownership_amended sessDbC2 "s1" "bob" (by decide)).2.1,
   (C2_ownership_amended sessDbC2 "missing" "bob" (by decide)).2.2.2.2.1 (by decide)⟩

/-- C3 (code bug).  `GET /api/messages/health` never reaches the health
handler: the route table matches `/\x7bmessage_id\x7d` first (registered
earlier), dispatching to the single-message handler; and even the health
handler itself cannot produce the healthy body, because
`app/api/messages.py` never imports `datetime`, so its body raises
`NameError` — contradicting the claim that the endpoint always succeeds
with a 200 healthy-status body. -/
theorem C3_health_endpoint_bug :
    dispatchMessagesGet ["health"] = some "get_message" ∧
    dispatchMessagesGet ["health"] ≠ some "message_api_health" ∧
    messagesModuleImports.contains "datetime" = false ∧
    message_api_health = Except.error "NameError: name datetime is not defined" :=
  ⟨by decide, by decide, by decide, rfl⟩

theorem mem_ite_singleton {c : Prop} [Decidable c] (r x : PwReason) :
    (r ∈ (if c then [x] else [])) ↔ (c ∧ r = x) := by
  by_cases h : c <;> simp [h]

/-- C8 (confirmed).  `validate_password` reports every violated rule
together: a password passes with zero reasons iff it meets the minimum
length (8) and has an uppercase letter, a lowercase letter, a digit, a
special character, and no space; each of the six reasons is present in
the result exactly when its rule is violated; `"abc"` yields the four
reasons length/uppercase/digit/special; `"Abcdef1!"` yields zero. -/
theorem C8_password_rules :
    (∀ p : List Char,
      validate_password p = [] ↔
        (password_min_length ≤ p.length ∧ p.any pyIsUpperCh = true ∧
         p.any pyIsLowerCh = true ∧ p.any pyIsDigitCh = true ∧
         p.any (fun c => pwSpecialChars.contains c) = true ∧
         p.contains ' ' = false)) ∧
    (∀ p : List Char,
      (PwReason.tooShort ∈ validate_password p ↔ p.length < password_min_length) ∧
      (PwReason.noUpper ∈ validate_password p ↔ p.any pyIsUpperCh = false) ∧
      (PwReason.noLower ∈ validate_password p ↔ p.any pyIsLowerCh = false) ∧
      (PwReason.noDigit ∈ validate_password p ↔ p.any pyIsDigitCh = false) ∧
      (PwReason.noSpecial ∈ validate_password p ↔
        p.any (fun c => pwSpecialChars.contains c) = false) ∧
      (PwReason.hasSpace ∈ validate_password p ↔ p.contains ' ' = true)) ∧
    validate_password "abc".data =
      [PwReason.tooShort, PwReason.noUpper, PwReason.noDigit, PwReason.noSpecial] ∧
    validate_password "Abcdef1!".data = [] := by
  refine ⟨?_, ?_, by decide, by decide⟩
  · intro p
    by_cases c1 : p.length < password_min_length <;>
    by_cases c2 : p.any pyIsUpperCh = true <;>
    by_cases c3 : p.any pyIsLowerCh = true <;>
    by_cases c4 : p.any pyIsDigitCh = true <;>
    by_cases c5 : p.any (fun c => pwSpecialChars.contains c) = true <;>
    by_cases c6 : p.contains ' ' = true <;>
    simp [validate_password, Nat.not_lt, Bool.not_eq_true, c1, c2, c3, c4, c5, c6,
      Nat.lt_iff_add_one_le] <;>
    omega
  · intro p
    refine ⟨?_, ?_, ?_, ?_, ?_, ?_⟩ <;>
      simp [validate_password, List.mem_append, mem_ite_singleton, Bool.not_eq_true']

/-- C10 (confirmed).  With a non-empty allow-list, any URL starting (as a
raw string prefix) with `https://` or `http://` followed by an allowed
host is judged safe — including hosts that merely extend an allowed one,
e.g. `https://example.com.evil.net/x` against `["example.com"]`. -/
theorem C10_redirect_prefix_match :
    ∀ (url : List Char) (allowed_hosts : List (List Char)) (host : List Char),
      host ∈ allowed_hosts →
      (listIsPref ("https://".data ++ host) url = true ∨
       listIsPref ("http://".data ++ host) url = true) →
      is_safe_redirect_url url allowed_hosts = true := by
  intro url hosts host hmem hpref
  have hurl : ∃ rest, url = 'h' :: rest := by
    rcases hpref with h | h
    · exact listIsPref_nonempty 'h' ("ttps://".data ++ host) url h
    · exact listIsPref_nonempty 'h' ("ttp://".data ++ host) url h
  rcases hurl with ⟨rest, hrest⟩
  subst hrest
  rw [is_safe_redirect_url]
  simp only [List.isEmpty_cons, Bool.false_eq_true, if_false, listIsPref]
  rw [if_neg (by simp)]
  exact List.any_eq_true.mpr ⟨host, hmem, by simpa using hpref⟩

theorem C10_redirect_prefix_match_witness :
    "example.com".data ∈ ["example.com".data] ∧
    listIsPref ("https://".data ++ "example.com".data)
      "https://example.com.evil.net/x".data = true ∧
    is_safe_redirect_url "https://example.com.evil.net/x".data
      ["example.com".data] = true :=
  ⟨by simp, by decide,
   C10_redirect_prefix_match "https://example.com.evil.net/x".data
     ["example.com".data] "example.com".data (by simp) (Or.inl (by decide))⟩

/-! ## Facts about participant join (claim C7) -/

theorem join_session_notFound (sessions : List Sess) (parts : List Part)
    (code nick : String) (ip : Option String) (nid : String)
    (h : ∀ s ∈ sessions, s.session_code ≠ pyUpper code) :
    join_session sessions parts code nick ip nid = (JoinResult.notFound, parts) := by
  have hf : get_session_by_code sessions (pyUpper code) = none := by
    rw [get_session_by_code, List.find?_eq_none]
    intro s hs
    simp [h s hs]
  simp [join_session, hf]

theorem join_session_conflict (sessions : List Sess) (parts : List Part)
    (code nick : String) (ip : Option String) (nid : String) (s : Sess)
    (hs : get_session_by_code sessions (pyUpper code) = some s)
    (hex : ∃ p ∈ parts, p.session_id = s.id ∧ p.nickname = nick) :
    join_session sessions parts code nick ip nid = (JoinResult.conflict, parts) := by
  obtain ⟨p, hp, hsid, hnick⟩ := hex
  have hsome : (parts.find? (fun q => q.session_id == s.id && q.nickname == nick)).isSome :=
    List.find?_isSome.mpr ⟨p, hp, by simp [hsid, hnick]⟩
  obtain ⟨q, hq⟩ := Option.isSome_iff_exists.mp hsome
  simp [join_session, hs, hq]

theorem join_session_ok (sessions : List Sess) (parts : List Part)
    (code nick : String) (ip : Option String) (nid : String) (s : Sess)
    (hs : get_session_by_code sessions (pyUpper code) = some s)
    (hfree : ∀ p ∈ parts, ¬(p.session_id = s.id ∧ p.nickname = nick)) :
    join_session sessions parts code nick ip nid =
      (JoinResult.ok,
        parts ++ [{ id := nid, session_id := s.id, nickname := nick,
                    ip_address := ip }]) := by
  have hf : parts.find? (fun q => q.session_id == s.id && q.nickname == nick) = none := by
    rw [List.find?_eq_none]
    intro q hq hc
    simp only [Bool.and_eq_true, beq_iff_eq] at hc
    exact hfree q hq hc
  simp [join_session, hs, hf]

/-- Toggling every `is_active` flag (the gate the source comments out)
changes nothing about `join_session`. -/
theorem join_session_active_irrelevant (sessions : List Sess) (parts : List Part)
    (code nick : String) (ip : Option String) (nid : String) :
    join_session (sessions.map (fun s => { s with is_active := !s.is_active }))
        parts code nick ip nid =
      join_session sessions parts code nick ip nid := by
  have hmap : get_session_by_code
      (sessions.map (fun s => { s with is_active := !s.is_active })) (pyUpper code) =
      (get_session_by_code sessions (pyUpper code)).map
        (fun s => { s with is_active := !s.is_active }) := by
    rw [get_session_by_code, get_session_by_code, List.find?_map]
    rfl
  cases hfind : get_session_by_code sessions (pyUpper code) with
  | none => simp [join_session, hmap, hfind]
  | some s => simp [join_session, hmap, hfind]

theorem join_session_two_sessions (sessions : List Sess) (parts : List Part)
    (codeA codeB nick : String) (ipA ipB : Option String) (idA idB : String)
    (sA sB : Sess)
    (hA : get_session_by_code sessions (pyUpper codeA) = some sA)
    (hB : get_session_by_code sessions (pyUpper codeB) = some sB)
    (hAB : sA.id ≠ sB.id)
    (hfree : ∀ p ∈ parts, p.nickname ≠ nick) :
    (join_session sessions parts codeA nick ipA idA).1 = JoinResult.ok ∧
    (join_session sessions
        (join_session sessions parts codeA nick ipA idA).2
        codeB nick ipB idB).1 = JoinResult.ok := by
  have h1 := join_session_ok sessions parts codeA nick ipA idA sA hA
    (fun p hp hand => hfree p hp hand.2)
  refine ⟨by rw [h1], ?_⟩
  rw [h1]
  have h2 := join_session_ok sessions
    (parts ++ [{ id := idA, session_id := sA.id, nickname := nick, ip_address := ipA }])
    codeB nick ipB idB sB hB ?_
  · rw [h2]
  · intro p hp hand
    rcases List.mem_append.mp hp with hpl | hpr
    · exact hfree p hpl hand.2
    · have : p = { id := idA, session_id := sA.id, nickname := nick, ip_address := ipA } := by
        simpa using hpr
      rw [this] at hand
      exact hAB hand.1

/-- C7 (confirmed).  Join by session code fails NotFound when no session
carries the upper-cased code, fails Conflict when the exact nickname is
already taken within that session, and otherwise persists a new
Participant row with the caller's IP; the `is_active` flag of every
session is irrelevant (the gate is disabled), and the same nickname can
be used in two different sessions. -/
theorem C7_participant_join :
    (∀ (sessions : List Sess) (parts : List Part) (code nick : String)
        (ip : Option String) (nid : String),
      (∀ s ∈ sessions, s.session_code ≠ pyUpper code) →
      join_session sessions parts code nick ip nid = (JoinResult.notFound, parts)) ∧
    (∀ (sessions : List Sess) (parts : List Part) (code nick : String)
        (ip : Option String) (nid : String) (s : Sess),
      get_session_by_code sessions (pyUpper code) = some s →
      (∃ p ∈ parts, p.session_id = s.id ∧ p.nickname = nick) →
      join_session sessions parts code nick ip nid = (JoinResult.conflict, parts)) ∧
    (∀ (sessions : List Sess) (parts : List Part) (code nick : String)
        (ip : Option String) (nid : String) (s : Sess),
      get_session_by_code sessions (pyUpper code) = some s →
      (∀ p ∈ parts, ¬(p.session_id = s.id ∧ p.nickname = nick)) →
      join_session sessions parts code nick ip nid =
        (JoinResult.ok,
          parts ++ [{ id := nid, session_id := s.id, nickname := nick,
                      ip_address := ip }])) ∧
    (∀ (sessions : List Sess) (parts : List Part) (code nick : String)
        (ip : Option String) (nid : String),
      join_session (sessions.map (fun s => { s with is_active := !s.is_active }))
          parts code nick ip nid =
        join_session sessions parts code nick ip nid) ∧
    (∀ (sessions : List Sess) (parts : List Part) (codeA codeB nick : String)
        (ipA ipB : Option String) (idA idB : String) (sA sB : Sess),
      get_session_by_code sessions (pyUpper codeA) = some sA →
      get_session_by_code sessions (pyUpper codeB) = some sB →
      sA.id ≠ sB.id →
      (∀ p ∈ parts, p.nickname ≠ nick) →
      (join_session sessions parts codeA nick ipA idA).1 = JoinResult.ok ∧
      (join_session sessions
          (join_session sessions parts codeA nick ipA idA).2
          codeB nick ipB idB).1 = JoinResult.ok) :=
  ⟨join_session_notFound,
   fun se pa c n i d s => join_session_conflict se pa c n i d s,
   fun se pa c n i d s => join_session_ok se pa c n i d s,
   join_session_active_irrelevant,
   fun se pa cA cB n iA iB dA dB sA sB => join_session_two_sessions se pa cA cB n iA iB dA dB sA sB⟩

def sessA : Sess :=
  { id := "sA", presenter_id := "u1", title := "Alpha",
    description := none, session_code := "AAAAAA", is_active := false }

def sessB : Sess :=
  { id := "sB", presenter_id := "u1", title := "Beta",
    description := none, session_code := "BBBBBB", is_active := true }

def sessDbC7 : List Sess := [sessA, sessB]

theorem C7_participant_join_witness :
    (join_session sessDbC7 [] "ZZZZZZ" "Sam" none "p0" = (JoinResult.notFound, [])) ∧
    ((join_session sessDbC7 [] "aaaaaa" "Sam" none "p1").1 = JoinResult.ok ∧
      (join_session sessDbC7
          (join_session sessDbC7 [] "aaaaaa" "Sam" none "p1").2
          "bbbbbb" "Sam" none "p2").1 = JoinResult.ok) :=
  ⟨C7_participant_join.1 sessDbC7 [] "ZZZZZZ" "Sam" none "p0" (by decide),
   C7_participant_join.2.2.2.2 sessDbC7 [] "aaaaaa" "bbbbbb" "Sam" none none "p1" "p2"
     sessA sessB (by decide) (by decide) (by decide) (by simp)⟩

/-! ## Facts about the message store (claims C4, C5, C6, C9) -/

/-- The primary-key invariant of the `messages` table: pairwise distinct ids. -/
def MsgPK (db : List Msg) : Prop :=
  db.Pairwise (fun a b => a.id ≠ b.id)

instance (db : List Msg) : Decidable (MsgPK db) := by
  unfold MsgPK
  infer_instance

theorem msgPK_id_unique {db : List Msg} (hpk : MsgPK db) :
    ∀ x ∈ db, ∀ y ∈ db, x.id = y.id → x = y := by
  have hpk' : db.Pairwise (fun a b => a.id ≠ b.id) := hpk
  have hsym : Symmetric (fun (a b : Msg) => a.id ≠ b.id) :=
    fun a b h he => h he.symm
  intro x hx y hy hid
  by_cases hxy : x = y
  · exact hxy
  · exact absurd hid (List.Pairwise.forall hsym hpk' hx hy hxy)

/-- If the looked-up row itself fails the ownership/liveness test, then no
row at all passes the `update_message`/`delete_message` filter. -/
theorem find?_ownLive_eq_none {db : List Msg} {m : Msg} {pid : String}
    (hm : m ∈ db) (hpk : MsgPK db)
    (h : (m.participant_id == pid && !m.is_deleted) = false) :
    db.find? (ownLiveFilter m.id pid) = none := by
  rw [List.find?_eq_none]
  intro x hx hc
  simp only [ownLiveFilter, Bool.and_eq_true, beq_iff_eq] at hc
  have hxm : x = m := msgPK_id_unique hpk x hx m hm hc.1.1
  subst hxm
  rcases Bool.and_eq_false_iff.mp h with h' | h'
  · rw [beq_eq_false_iff_ne] at h'
    exact h' hc.1.2
  · exact absurd (h'.symm.trans hc.2) Bool.false_ne_true

theorem find?_middle {p : Msg → Bool} {l₁ l₂ : List Msg} {m : Msg}
    (h₁ : ∀ x ∈ l₁, p x = false) (hm : p m = true) :
    (l₁ ++ m :: l₂).find? p = some m := by
  induction l₁ with
  | nil => simp [List.find?_cons, hm]
  | cons a l ih =>
    have ha : p a = false := h₁ a (List.mem_cons_self a l)
    simp only [List.cons_append, List.find?_cons, ha]
    exact ih (fun x hx => h₁ x (List.mem_cons_of_mem _ hx))

theorem replaceFirst_middle {p : Msg → Bool} {f : Msg → Msg} {l₁ l₂ : List Msg} {m : Msg}
    (h₁ : ∀ x ∈ l₁, p x = false) (hm : p m = true) :
    replaceFirst p f (l₁ ++ m :: l₂) = l₁ ++ f m :: l₂ := by
  induction l₁ with
  | nil => simp [replaceFirst, hm]
  | cons a l ih =>
    have ha : p a = false := h₁ a (List.mem_cons_self a l)
    simp only [List.cons_append, replaceFirst, ha, Bool.false_eq_true, if_false,
      List.cons.injEq, true_and]
    exact ih (fun x hx => h₁ x (List.mem_cons_of_mem _ hx))

theorem mem_insertLe {le : Msg → Msg → Bool} {m x : Msg} {l : List Msg} :
    x ∈ insertLe le m l ↔ x = m ∨ x ∈ l := by
  induction l with
  | nil => simp [insertLe]
  | cons a rest ih =>
    by_cases h : le m a = true
    · simp [insertLe, h]
    · simp only [insertLe, h, Bool.false_eq_true, if_false, List.mem_cons, ih]
      tauto

theorem mem_sortLe {le : Msg → Msg → Bool} {x : Msg} {l : List Msg} :
    x ∈ sortLe le l ↔ x ∈ l := by
  induction l with
  | nil => simp [sortLe]
  | cons a rest ih =>
    simp only [sortLe, mem_insertLe, List.mem_cons, ih]

theorem length_insertLe (le : Msg → Msg → Bool) (m : Msg) (l : List Msg) :
    (insertLe le m l).length = l.length + 1 := by
  induction l with
  | nil => rfl
  | cons a rest ih =>
    by_cases h : le m a = true
    · simp [insertLe, h]
    · simp [insertLe, h, ih]

theorem length_sortLe (le : Msg → Msg → Bool) (l : List Msg) :
    (sortLe le l).length = l.length := by
  induction l with
  | nil => rfl
  | cons a rest ih => simp [sortLe, length_insertLe, ih]

/-- C4 (confirmed).  Under the primary-key invariant, a stored live message
is updatable/deletable exactly by its own participant id; any other caller
gets the NotFound-equivalent result (`None` / `False`) and the database —
hence the message row with all its fields — is returned untouched. -/
theorem C4_message_ownership :
    ∀ (db : List Msg) (m : Msg) (pid : String) (u : MsgUpdate) (now : Nat),
      m ∈ db → MsgPK db → m.is_deleted = false →
      (pid ≠ m.participant_id →
        update_message db m.id pid u now = (db, none) ∧
        delete_message db m.id pid now = (db, false)) ∧
      (pid = m.participant_id →
        (update_message db m.id pid u now).2.isSome = true ∧
        (delete_message db m.id pid now).2 = true) := by
  intro db m pid u now hm hpk hlive
  constructor
  · intro hne
    have hnone : db.find? (ownLiveFilter m.id pid) = none := by
      apply find?_ownLive_eq_none hm hpk
      have : (m.participant_id == pid) = false := by
        rw [beq_eq_false_iff_ne]
        exact fun h => hne h.symm
      simp [this]
    constructor
    · rw [update_message, hnone]
    · rw [delete_message, hnone]
  · intro heq
    subst heq
    have hpred : ownLiveFilter m.id m.participant_id m = true := by
      simp [ownLiveFilter, hlive]
    have hsome : (db.find? (ownLiveFilter m.id m.participant_id)).isSome :=
      List.find?_isSome.mpr ⟨m, hm, hpred⟩
    obtain ⟨x, hx⟩ := Option.isSome_iff_exists.mp hsome
    constructor
    · simp [update_message, hx]
    · simp [delete_message, hx]

def msgRow1 : Msg :=
  { id := "m1", session_id := "s", participant_id := "p1", nickname := "Ann",
    content := "hello", message_type := "user_message", is_deleted := false,
    is_edited := false, edit_count := 0, created_at := 1, updated_at := 1,
    deleted_at := none }

def msgRow2 : Msg :=
  { id := "m2", session_id := "s", participant_id := "p2", nickname := "Ben",
    content := "hi", message_type := "user_message", is_deleted := false,
    is_edited := false, edit_count := 0, created_at := 2, updated_at := 2,
    deleted_at := none }

def msgDb : List Msg := [msgRow1, msgRow2]

theorem C4_message_ownership_witness :
    (msgRow1 ∈ msgDb ∧ MsgPK msgDb ∧ msgRow1.is_deleted = false) ∧
    update_message msgDb "m1" "p2" { content := "x" } 9 = (msgDb, none) ∧
    (delete_message msgDb "m1" "p1" 9).2 = true :=
  ⟨⟨by decide, by decide, by decide⟩,
   ((C4_message_ownership msgDb msgRow1 "p2" { content := "x" } 9
      (by decide) (by decide) (by decide)).1 (by decide)).1,
   ((C4_message_ownership msgDb msgRow1 "p1" { content := "x" } 9
      (by decide) (by decide) (by decide)).2 rfl).2⟩

/-- C9 (confirmed).  A message that is already soft-deleted is invisible to
the ownership lookup of `update_message`/`delete_message` (the filter
requires `is_deleted == False`), so both operations fail and leave the
database unchanged even for the owning participant id. -/
theorem C9_deleted_message_rejects :
    ∀ (db : List Msg) (m : Msg) (pid : String) (u : MsgUpdate) (now : Nat),
      m ∈ db → MsgPK db → m.is_deleted = true →
      update_message db m.id pid u now = (db, none) ∧
      delete_message db m.id pid now = (db, false) := by
  intro db m pid u now hm hpk hdel
  have hnone : db.find? (ownLiveFilter m.id pid) = none := by
    apply find?_ownLive_eq_none hm hpk
    simp [hdel]
  constructor
  · rw [update_message, hnone]
  · rw [delete_message, hnone]

def msgRowDeleted : Msg :=
  { id := "m3", session_id := "s", participant_id := "p3", nickname := "Cyn",
    content := "bye", message_type := "user_message", is_deleted := true,
    is_edited := false, edit_count := 0, created_at := 3, updated_at := 3,
    deleted_at := some 5 }

def msgDbDel : List Msg := [msgRow1, msgRowDeleted]

theorem C9_deleted_message_rejects_witness :
    (msgRowDeleted ∈ msgDbDel ∧ MsgPK msgDbDel ∧ msgRowDeleted.is_deleted = true) ∧
    update_message msgDbDel "m3" "p3" { content := "x" } 9 = (msgDbDel, none) ∧
    delete_message msgDbDel "m3" "p3" 9 = (msgDbDel, false) :=
  ⟨⟨by decide, by decide, by decide⟩,
   (C9_deleted_message_rejects msgDbDel msgRowDeleted "p3" { content := "x" } 9
      (by decide) (by decide) (by decide)).1,
   (C9_deleted_message_rejects msgDbDel msgRowDeleted "p3" { content := "x" } 9
      (by decide) (by decide) (by decide)).2⟩

/-- C5 (confirmed).  For a session holding `N` live messages, the paginated
list returns `min page_size (N - (page-1)*page_size)` messages (natural
subtraction truncates at 0, i.e. `max 0 (...)`), reports
`total_count = N` on every page, and `has_next = true` iff
`page * page_size < N`. -/
theorem C5_pagination :
    ∀ (db : List Msg) (session_id : String) (page page_size : Nat)
        (order : String) (N : Nat),
      1 ≤ page → 1 ≤ page_size → page_size ≤ 100 →
      N = (sessionLive db session_id).length →
      (get_session_messages db session_id page page_size order).messages.length =
        min page_size (N - (page - 1) * page_size) ∧
      (get_session_messages db session_id page page_size order).total_count = N ∧
      ((get_session_messages db session_id page page_size order).has_next = true ↔
        page * page_size < N) := by
  intro db session_id page page_size order N _ _ _ hN
  subst hN
  refine ⟨?_, rfl, ?_⟩
  · simp [get_session_messages, List.length_take, List.length_drop, length_sortLe]
  · simp [get_session_messages]

def msgN (i : Nat) : Msg :=
  { id := "x", session_id := "s", participant_id := "p", nickname := "n",
    content := "c", message_type := "user_message", is_deleted := false,
    is_edited := false, edit_count := 0, created_at := i, updated_at := i,
    deleted_at := none }

def msgDb120 : List Msg := (List.range 120).map msgN

theorem C5_pagination_witness :
    (sessionLive msgDb120 "s").length = 120 ∧
    (get_session_messages msgDb120 "s" 1 50 "desc").messages.length = 50 ∧
    (get_session_messages msgDb120 "s" 1 50 "desc").total_count = 120 ∧
    (get_session_messages msgDb120 "s" 1 50 "desc").has_next = true ∧
    (get_session_messages msgDb120 "s" 3 50 "desc").messages.length = 20 ∧
    (get_session_messages msgDb120 "s" 3 50 "desc").has_next = false :=
  ⟨by decide,
   ((C5_pagination msgDb120 "s" 1 50 "desc" 120 (by decide) (by decide) (by decide)
      (by decide)).1).trans (by decide),
   (C5_pagination msgDb120 "s" 1 50 "desc" 120 (by decide) (by decide) (by decide)
      (by decide)).2.1,
   (C5_pagination msgDb120 "s" 1 50 "desc" 120 (by decide) (by decide) (by decide)
      (by decide)).2.2.mpr (by decide),
   ((C5_pagination msgDb120 "s" 3 50 "desc" 120 (by decide) (by decide) (by decide)
      (by decide)).1).trans (by decide),
   Bool.eq_false_iff.mpr (fun h => absurd
     ((C5_pagination msgDb120 "s" 3 50 "desc" 120 (by decide) (by decide) (by decide)
        (by decide)).2.2.mp h) (by decide))⟩

theorem message_stats_query_congr {db1 db2 : List Msg} {sid : String}
    (h : sessionLive db1 sid = sessionLive db2 sid) :
    message_stats_query db1 sid = message_stats_query db2 sid := by
  simp only [message_stats_query, h]

/-- C6 counterexample.  With two live messages in session `s`, a stats
read populates the 5-minute cache with an aggregate counting 2 messages;
soft-deleting `m1` succeeds but leaves the `message_stats:s` key
untouched (the source delete path invalidates only the message and
recent-message keys), so a stats read within the TTL still returns the
pre-delete aggregate counting the deleted message — although only one
live row remains — refuting the statistics leg of the claim. -/
theorem C6_soft_delete_visibility_counterexample :
    (get_message_stats none msgDb "s").2 = some (message_stats_query msgDb "s") ∧
    (message_stats_query msgDb "s").total_messages = 2 ∧
    (delete_message msgDb "m1" "p1" 9).2 = true ∧
    delete_message_stats_cache (some (message_stats_query msgDb "s")) =
      some (message_stats_query msgDb "s") ∧
    (get_message_stats (some (message_stats_query msgDb "s"))
        (delete_message msgDb "m1" "p1" 9).1 "s").1.total_messages = 2 ∧
    (message_stats_query (delete_message msgDb "m1" "p1" 9).1 "s").total_messages = 1 := by
  decide

/-- C6 (amended).  After a successful soft delete, the message is gone
from the single get, the paginated list, and the recent list, and the
*freshly computed* statistics (a read when the 5-minute stats key is
absent or expired) behave as if the row were filtered out; but because
the delete path never invalidates the stats key, a read that hits a
cached pre-delete aggregate returns it unchanged — still counting the
deleted message — until the TTL expires.  The row itself still exists
with `is_deleted = true`, a non-absent `deleted_at`, and its other
fields intact. -/
theorem C6_soft_delete_visibility_amended :
    ∀ (db : List Msg) (m : Msg) (now : Nat),
      m ∈ db → MsgPK db → m.is_deleted = false →
      (delete_message db m.id m.participant_id now).2 = true ∧
      get_message (delete_message db m.id m.participant_id now).1 m.id = none ∧
      (∀ page page_size : Nat, ∀ order : String,
        ∀ r ∈ (get_session_messages (delete_message db m.id m.participant_id now).1
            m.session_id page page_size order).messages, r.id ≠ m.id) ∧
      (∀ limit : Nat,
        ∀ r ∈ get_recent_messages (delete_message db m.id m.participant_id now).1
            m.session_id limit, r.id ≠ m.id) ∧
      (get_message_stats (delete_message_stats_cache none)
          (delete_message db m.id m.participant_id now).1 m.session_id).1 =
        message_stats_query
          ((delete_message db m.id m.participant_id now).1.filter
            (fun r => !(r.id == m.id))) m.session_id ∧
      (∀ st : MessageStats,
        get_message_stats (delete_message_stats_cache (some st))
            (delete_message db m.id m.participant_id now).1 m.session_id =
          (st, some st)) ∧
      (∃ r ∈ (delete_message db m.id m.participant_id now).1,
        r.id = m.id ∧ r.is_deleted = true ∧ r.deleted_at = some now ∧
        r.content = m.content ∧ r.session_id = m.session_id ∧
        r.participant_id = m.participant_id) := by
  intro db m now hm hpk hlive
  obtain ⟨l₁, l₂, hdb⟩ := List.append_of_mem hm
  subst hdb
  have hpk' : (l₁ ++ m :: l₂).Pairwise (fun a b => a.id ≠ b.id) := hpk
  rcases List.pairwise_append.mp hpk' with ⟨_, hp2, hcross⟩
  have hmL2 : ∀ x ∈ l₂, m.id ≠ x.id := (List.pairwise_cons.mp hp2).1
  have hidl1 : ∀ x ∈ l₁, x.id ≠ m.id :=
    fun x hx => hcross x hx m (List.mem_cons_self m l₂)
  have h₁ : ∀ x ∈ l₁, ownLiveFilter m.id m.participant_id x = false := by
    intro x hx
    have hne : (x.id == m.id) = false := beq_eq_false_iff_ne.mpr (hidl1 x hx)
    simp [ownLiveFilter, hne]
  have hpredm : ownLiveFilter m.id m.participant_id m = true := by
    simp [ownLiveFilter, hlive]
  have hfind : (l₁ ++ m :: l₂).find? (ownLiveFilter m.id m.participant_id) = some m :=
    find?_middle h₁ hpredm
  have hdel : delete_message (l₁ ++ m :: l₂) m.id m.participant_id now =
      (l₁ ++ markDeleted now m :: l₂, true) := by
    rw [delete_message, hfind, replaceFirst_middle h₁ hpredm]
  rw [hdel]
  have key : ∀ r ∈ l₁ ++ markDeleted now m :: l₂, r.id = m.id → r = markDeleted now m := by
    intro r hr hid
    rcases List.mem_append.mp hr with h | h
    · exact absurd hid (hidl1 r h)
    · rcases List.mem_cons.mp h with h | h
      · exact h
      · exact absurd hid.symm (hmL2 r h)
  refine ⟨rfl, ?_, ?_, ?_, ?_, ?_, ?_⟩
  · rw [get_message, List.find?_eq_none]
    intro x hx hc
    simp only [Bool.and_eq_true, beq_iff_eq, Bool.not_eq_true'] at hc
    have := key x hx hc.1
    rw [this] at hc
    simp [markDeleted] at hc
  · intro page page_size order r hr goal_eq
    have hr1 : r ∈ sessionLive (l₁ ++ markDeleted now m :: l₂) m.session_id := by
      simp only [get_session_messages] at hr
      exact mem_sortLe.mp (List.mem_of_mem_drop (List.mem_of_mem_take hr))
    rcases List.mem_filter.mp hr1 with ⟨hrdb, hcond⟩
    simp only [Bool.and_eq_true, beq_iff_eq, Bool.not_eq_true'] at hcond
    have := key r hrdb goal_eq
    rw [this] at hcond
    simp [markDeleted] at hcond
  · intro limit r hr goal_eq
    have hr1 : r ∈ sessionLive (l₁ ++ markDeleted now m :: l₂) m.session_id := by
      simp only [get_recent_messages] at hr
      exact mem_sortLe.mp (List.mem_of_mem_take hr)
    rcases List.mem_filter.mp hr1 with ⟨hrdb, hcond⟩
    simp only [Bool.and_eq_true, beq_iff_eq, Bool.not_eq_true'] at hcond
    have := key r hrdb goal_eq
    rw [this] at hcond
    simp [markDeleted] at hcond
  · show message_stats_query (l₁ ++ markDeleted now m :: l₂) m.session_id = _
    apply message_stats_query_congr
    rw [sessionLive, sessionLive, List.filter_filter]
    apply List.filter_congr
    intro x hx
    by_cases hid : x.id = m.id
    · have hx' := key x hx hid
      rw [hx']
      simp [markDeleted]
    · have : (x.id == m.id) = false := beq_eq_false_iff_ne.mpr hid
      simp [this]
  · intro st
    rfl
  · refine ⟨markDeleted now m, ?_, ?_⟩
    · exact List.mem_append.mpr (Or.inr (List.mem_cons_self _ _))
    · simp [markDeleted]

theorem C6_soft_delete_visibility_amended_witness :
    (msgRow1 ∈ msgDb ∧ MsgPK msgDb ∧ msgRow1.is_deleted = false) ∧
    (delete_message msgDb "m1" "p1" 9).2 = true ∧
    get_message (delete_message msgDb "m1" "p1" 9).1 "m1" = none ∧
    (get_message_stats (delete_message_stats_cache none)
        (delete_message msgDb "m1" "p1" 9).1 "s").1 =
      message_stats_query
        ((delete_message msgDb "m1" "p1" 9).1.filter (fun r => !(r.id == "m1"))) "s" :=
  ⟨⟨by decide, by decide, by decide⟩,
   (C6_soft_delete_visibility_amended msgDb msgRow1 9 (by decide) (by decide) (by decide)).1,
   (C6_soft_delete_visibility_amended msgDb msgRow1 9 (by decide) (by decide) (by decide)).2.1,
   (C6_soft_delete_visibility_amended msgDb msgRow1 9 (by decide) (by decide)
      (by decide)).2.2.2.2.1⟩

end Ptime
